import Mathlib

/-!
# Verification of the agent-evaluation harness (`evaluate_agents.py`)

A shallow embedding of the evaluation harness of this repository:

* Python string helpers used by the harness (`str.split()`, `str.strip()`,
  `str.lower()`), restricted to the ASCII whitespace characters Python
  treats as separators;
* the metric computation `AgentEvaluator._calculate_metrics`;
* the retrying backend call `AgentEvaluator._call_agent_with_retry`,
  instrumented with an event trace recording attempts and back-off sleeps;
* the per-instruction evaluation `AgentEvaluator._evaluate_instruction`
  and the batch driver `AgentEvaluator.run_evaluation`, instrumented with
  an event trace recording agent calls, record appends and saves;
* the configuration sanitizer `AgentEvaluator._get_sanitized_config` and
  the serialization used by `AgentEvaluator._save_results`.

Numeric metric values are modelled in exact rational arithmetic (`ℚ`) in
place of IEEE floating point.  Network responses are modelled by an oracle
`backend : Nat → Except String String` giving, for each zero-based attempt
index, either the transport error raised by that attempt or the response
text extracted from the JSON body.  Wall-clock durations are supplied by an
oracle as well.  The external NLP libraries (NLTK BLEU, `rouge`) are
modelled by the `NlpLibs` record below: the branch of NLTK that the claims
exercise (`corpus_bleu` returns `0` whenever the clipped unigram count is
zero) is embedded faithfully, and the remaining smoothed computation is an
arbitrary parameter, so every theorem below holds for every possible
behaviour of that remainder.
-/

/-! ## Python string primitives -/

/-- The ASCII whitespace characters recognised by Python's argument-less
`str.split()` and `str.strip()`: space, tab, newline, vertical tab,
form feed and carriage return. -/
def pyIsSpace (c : Char) : Bool :=
  (c == ' ') || (c == '\t') || (c == '\n') || (c == '\x0b') || (c == '\x0c') || (c == '\r')

/-- Worker for `pySplit`: scans the character list, accumulating the current
word in reverse in `acc`; whitespace flushes the accumulated word (if any),
mirroring the fact that Python's `str.split()` drops empty fields. -/
def pySplitAux (p : Char → Bool) : List Char → List Char → List String
  | [], acc => if acc.isEmpty then [] else [String.mk acc.reverse]
  | c :: cs, acc =>
    if p c then
      (if acc.isEmpty then pySplitAux p cs [] else String.mk acc.reverse :: pySplitAux p cs [])
    else pySplitAux p cs (c :: acc)

/-- Python `s.split()` (no separator argument): the maximal runs of
non-whitespace characters of `s`, in order. -/
def pySplit (s : String) : List String :=
  pySplitAux pyIsSpace s.data []

/-- Python `s.strip()` (no argument): `s` without its leading and trailing
whitespace. -/
def pyStrip (s : String) : String :=
  String.mk (((s.data.dropWhile pyIsSpace).reverse.dropWhile pyIsSpace).reverse)

/-- Python `s.lower()`, on the ASCII fragment the suite exercises. -/
def pyLower (s : String) : String :=
  String.mk (s.data.map Char.toLower)

/-- `set(s.lower().split())`: the lowercased word set of a string, as built
by `_evaluate_instruction` before calling `_calculate_metrics`. -/
def lowerWordSet (s : String) : Finset String :=
  (pySplit (pyLower s)).toFinset

/-! ## External NLP libraries -/

/-- The clipped unigram match count `p_numerators[1]` computed by NLTK's
`modified_precision` for a hypothesis against a single reference: for each
distinct hypothesis token, its hypothesis count clipped by its reference
count. -/
def clippedUnigramCount (hypTokens refTokens : List String) : ℕ :=
  (hypTokens.dedup.map (fun w => min (hypTokens.count w) (refTokens.count w))).sum

/-- The external NLP libraries used by `_calculate_metrics`, abstracted.
`bleuRest` is NLTK's smoothed BLEU computation on the branch where at least
one unigram matches (its value is irrelevant to every theorem below);
`rougeImpl` is `Rouge.get_scores`, returning the `(rouge-1, rouge-2,
rouge-l)` F-scores. -/
structure NlpLibs where
  bleuRest : List String → List String → ℚ
  rougeImpl : String → String → ℚ × ℚ × ℚ

/-- NLTK `sentence_bleu([expected_tokens], response_tokens, smoothing)`.
Modelled from the NLTK source: `corpus_bleu` returns `0` as soon as the
clipped unigram count `p_numerators[1]` is zero (before any smoothing is
applied); otherwise the smoothed computation `bleuRest` runs. -/
def sentence_bleu (libs : NlpLibs) (refTokens hypTokens : List String) : ℚ :=
  if clippedUnigramCount hypTokens refTokens = 0 then 0 else libs.bleuRest refTokens hypTokens

/-! ## The metric set and `_calculate_metrics` -/

/-- The metric dictionary produced by `AgentEvaluator._calculate_metrics`
(plus the `response_time` entry added by `_evaluate_instruction`). -/
structure MetricSet where
  response_length : ℕ
  expected_length : ℕ
  length_ratio : ℚ
  jaccard_similarity : ℚ
  bleu_score : ℚ
  rouge_1 : ℚ
  rouge_2 : ℚ
  rouge_l : ℚ
  response_time : ℚ
deriving Repr, DecidableEq

/-- `AgentEvaluator._calculate_metrics`, taking the pre-tokenized inputs
exactly as the Python method does.  The `response_time` field is filled by
the caller (`_evaluate_instruction`); here it is initialised to `0`. -/
def calculate_metrics (libs : NlpLibs) (response expected : String)
    (response_tokens expected_tokens : List String)
    (response_lower_words expected_lower_words : Finset String) : MetricSet :=
  let inter := (response_lower_words ∩ expected_lower_words).card
  let union := (response_lower_words ∪ expected_lower_words).card
  { response_length := response.length
    expected_length := expected.length
    length_ratio := (response.length : ℚ) / (max expected.length 1 : ℕ)
    jaccard_similarity := if union > 0 then (inter : ℚ) / (union : ℚ) else 0
    bleu_score := sentence_bleu libs expected_tokens response_tokens
    rouge_1 := if pyStrip response ≠ "" ∧ pyStrip expected ≠ "" then (libs.rougeImpl response expected).1 else 0
    rouge_2 := if pyStrip response ≠ "" ∧ pyStrip expected ≠ "" then (libs.rougeImpl response expected).2.1 else 0
    rouge_l := if pyStrip response ≠ "" ∧ pyStrip expected ≠ "" then (libs.rougeImpl response expected).2.2 else 0
    response_time := 0 }

/-- The precomputation performed by `_evaluate_instruction` right before it
calls `_calculate_metrics`: tokenization by `str.split()` and lowercased
word sets. -/
def calculateMetricsFor (libs : NlpLibs) (response expected : String) : MetricSet :=
  calculate_metrics libs response expected
    (pySplit response) (pySplit expected)
    (lowerWordSet response) (lowerWordSet expected)

/-! ## `_call_agent_with_retry` -/

/-- The terminal error string built after the retry loop is exhausted:
`f"Failed after {max_retries} attempts: {str(last_error)}"`.  Python's
`str(None)` is `"None"`. -/
def failedMsg (max_retries : ℕ) (last_error : Option String) : String :=
  "Failed after " ++ toString max_retries ++ " attempts: " ++
    (match last_error with
     | none => "None"
     | some e => e)

/-- Events of one `_call_agent_with_retry` execution: an HTTP attempt with
its zero-based index, or a back-off `time.sleep` with its duration in
seconds. -/
inductive RetryEv where
  | attempt (i : ℕ)
  | sleep (seconds : ℕ)
deriving Repr, DecidableEq

/-- The `last_error` variable of the retry loop after iterating over the
attempt indices `l`: the error of the last failing attempt, if any,
starting from `le`. -/
def lastErrorFold (backend : ℕ → Except String String) (le : Option String) (l : List ℕ) :
    Option String :=
  l.foldl (fun acc i =>
    match backend i with
    | .error e => some e
    | .ok _ => acc) le

/-- The body of `_call_agent_with_retry`'s `for attempt in range(max_retries)`
loop over the remaining attempt indices `l`, carrying Python's `last_error`
variable.  A successful attempt returns `(content, None)` at once; a failed
attempt records the error, sleeps `retry_delay * 2 ** attempt`, and
continues; an exhausted loop returns `(None, error_message)`. -/
def callRetryGo (backend : ℕ → Except String String) (retry_delay max_retries : ℕ) :
    List ℕ → Option String → (Option String × Option String) × List RetryEv
  | [], last_error => ((none, some (failedMsg max_retries last_error)), [])
  | i :: rest, _last_error =>
    match backend i with
    | .ok content => ((some content, none), [RetryEv.attempt i])
    | .error e =>
      let r := callRetryGo backend retry_delay max_retries rest (some e)
      (r.1, RetryEv.attempt i :: RetryEv.sleep (retry_delay * 2 ^ i) :: r.2)

/-- `AgentEvaluator._call_agent_with_retry`, instrumented with its event
trace.  The backend oracle gives the outcome of each attempt. -/
def callAgentWithRetry (backend : ℕ → Except String String) (max_retries retry_delay : ℕ) :
    (Option String × Option String) × List RetryEv :=
  callRetryGo backend retry_delay max_retries (List.range max_retries) none

/-! ## Instructions, `_evaluate_instruction` and `run_evaluation` -/

/-- One entry of the instruction suite.  `id`, `type`, `title` and
`difficulty` are accessed unconditionally by `run_evaluation`;
`description`, `code`, `requirements` and `expected_response` are read
with `.get` / containment checks. -/
structure Instruction where
  id : String
  type : String
  title : String
  difficulty : String
  description : Option String
  code : Option String
  requirements : Option (List String)
  expected_response : Option String
deriving Repr, DecidableEq

/-- The prompt built by `_evaluate_instruction`: description, fenced code
block and requirements list — each included only when present and truthy —
joined by newlines. -/
def buildInstructionText (ins : Instruction) : String :=
  let descParts : List String :=
    match ins.description with
    | some d => if d = "" then [] else [d]
    | none => []
  let codeParts : List String :=
    match ins.code with
    | some c => if c = "" then [] else ["\n\n```\n" ++ c ++ "\n```"]
    | none => []
  let reqParts : List String :=
    match ins.requirements with
    | some rs =>
      if rs.isEmpty then []
      else ["\n\nRequirements:\n" ++ String.intercalate "\n" (rs.map (fun r => "- " ++ r))]
    | none => []
  String.intercalate "\n" (descParts ++ codeParts ++ reqParts)

/-- The dictionary returned by `_evaluate_instruction` for one instruction
and one agent version. -/
structure EvalResult where
  success : Bool
  metrics : Option MetricSet
  error : Option String
deriving Repr, DecidableEq

/-- Python's `error or "Unknown error"`: `None` and the empty string are
falsy. -/
def pyOrUnknown (error : Option String) : String :=
  match error with
  | some e => if e = "" then "Unknown error" else e
  | none => "Unknown error"

/-- `AgentEvaluator._evaluate_instruction`.  `callAgent` abstracts
`_call_agent_with_retry`'s `(response_text, error)` result for a given
agent version and prompt; `clock` gives the measured wall-clock duration of
the call for a given version and instruction id. -/
def evaluateInstruction (libs : NlpLibs)
    (callAgent : String → String → Option String × Option String)
    (clock : String → String → ℚ) (ins : Instruction) (version : String) : EvalResult :=
  let instruction_text := buildInstructionText ins
  let duration := clock version ins.id
  match callAgent version instruction_text with
  | (some response_text, none) =>
    match ins.expected_response with
    | some expected_response =>
      let m := calculateMetricsFor libs response_text expected_response
      { success := true, metrics := some { m with response_time := duration }, error := none }
    | none => { success := true, metrics := none, error := none }
  | (_, err) =>
    { success := false, metrics := none
      error := some ("Error with " ++ version ++ ": " ++ pyOrUnknown err) }

/-- One element of `self.results` as appended by `run_evaluation`.  The
Python record stores `result.get("metrics", {})`, an empty dict when the
metrics are absent; absence is modelled by `none`. -/
structure ResultRecord where
  instruction_id : String
  instruction_type : String
  difficulty : String
  v1_success : Bool
  v2_success : Bool
  v1_metrics : Option MetricSet
  v2_metrics : Option MetricSet
deriving Repr, DecidableEq

/-- Events of one `run_evaluation` execution: an agent evaluation
(`_evaluate_instruction` call) for a version and instruction id, an append
to `self.results`, or a `_save_results` invocation. -/
inductive RunEv where
  | call (version : String) (instruction_id : String)
  | append (instruction_id : String)
  | save
deriving Repr, DecidableEq

/-- One iteration of `run_evaluation`'s loop body: evaluate the instruction
with `v1`, then with `v2`, then append one record joining both outcomes to
`self.results` (and the corresponding events to the trace). -/
def runStep (libs : NlpLibs)
    (callAgent : String → String → Option String × Option String)
    (clock : String → String → ℚ)
    (st : List ResultRecord × List RunEv) (instruction : Instruction) :
    List ResultRecord × List RunEv :=
  let result_v1 := evaluateInstruction libs callAgent clock instruction "v1"
  let result_v2 := evaluateInstruction libs callAgent clock instruction "v2"
  (st.1 ++ [{ instruction_id := instruction.id
              instruction_type := instruction.type
              difficulty := instruction.difficulty
              v1_success := result_v1.success
              v2_success := result_v2.success
              v1_metrics := result_v1.metrics
              v2_metrics := result_v2.metrics }],
   st.2 ++ [RunEv.call "v1" instruction.id, RunEv.call "v2" instruction.id,
            RunEv.append instruction.id])

/-- `AgentEvaluator.run_evaluation`, instrumented with its event trace:
for each instruction, in suite order, evaluate with `v1`, then with `v2`,
then append one record joining both outcomes; after the loop, save once. -/
def runEvaluation (libs : NlpLibs)
    (callAgent : String → String → Option String × Option String)
    (clock : String → String → ℚ) (instructions : List Instruction) :
    List ResultRecord × List RunEv :=
  let run := instructions.foldl (runStep libs callAgent clock) ([], [])
  (run.1, run.2 ++ [RunEv.save])

/-- The record `run_evaluation` appends for one instruction (used to state
theorems about the result sequence). -/
def recordOf (libs : NlpLibs)
    (callAgent : String → String → Option String × Option String)
    (clock : String → String → ℚ) (instruction : Instruction) : ResultRecord :=
  let result_v1 := evaluateInstruction libs callAgent clock instruction "v1"
  let result_v2 := evaluateInstruction libs callAgent clock instruction "v2"
  { instruction_id := instruction.id
    instruction_type := instruction.type
    difficulty := instruction.difficulty
    v1_success := result_v1.success
    v2_success := result_v2.success
    v1_metrics := result_v1.metrics
    v2_metrics := result_v2.metrics }

/-- The three trace events `run_evaluation` emits for one instruction. -/
def eventsOf (instruction : Instruction) : List RunEv :=
  [RunEv.call "v1" instruction.id, RunEv.call "v2" instruction.id,
   RunEv.append instruction.id]

/-! ## Configuration sanitization and serialization -/

/-- The fixed redaction marker substituted for credentials. -/
def redactionMarker : String := "***REDACTED***"

/-- Python dict item assignment `d[k] = v` on an association-list dict
(keys are unique in the dicts the harness builds). -/
def dictSet (d : List (String × String)) (k v : String) : List (String × String) :=
  d.map (fun kv => if kv.1 = k then (kv.1, v) else kv)

/-- Python `k in d`. -/
def dictHasKey (d : List (String × String)) (k : String) : Bool :=
  d.any (fun kv => kv.1 = k)

/-- Python `d.get(k)`. -/
def dictGet (d : List (String × String)) (k : String) : Option String :=
  (d.find? (fun kv => kv.1 = k)).map (fun kv => kv.2)

/-- `AgentEvaluator._get_sanitized_config`, value level: copy the config
and overwrite `api_key_v1` / `api_key_v2` with the redaction marker when
present. -/
def getSanitizedConfig (config : List (String × String)) : List (String × String) :=
  let sanitized_config := config
  let sanitized₁ :=
    if dictHasKey sanitized_config "api_key_v1" then
      dictSet sanitized_config "api_key_v1" redactionMarker
    else sanitized_config
  if dictHasKey sanitized₁ "api_key_v2" then
    dictSet sanitized₁ "api_key_v2" redactionMarker
  else sanitized₁

/-- The JSON-style serialization of a config dict, as embedded in
`_save_results`' `json.dump` output. -/
def serializeConfig (config : List (String × String)) : String :=
  "\x7b" ++
    String.intercalate ", " (config.map (fun kv => "\"" ++ kv.1 ++ "\": \"" ++ kv.2 ++ "\"")) ++
  "\x7d"

/-- `sub` occurs as a contiguous substring of `s`. -/
def strContains (s sub : String) : Prop :=
  sub.data <:+: s.data

instance (s sub : String) : Decidable (strContains s sub) := by
  unfold strContains
  infer_instance

/-! ## A reference-level model of `_get_sanitized_config` (aliasing) -/

/-- A heap of Python dict objects; a dict reference is an index. -/
structure DictHeap where
  cells : List (List (String × String))
deriving Repr, DecidableEq

/-- Allocate a fresh dict object, returning the new heap and its
reference. -/
def heapAlloc (h : DictHeap) (d : List (String × String)) : DictHeap × ℕ :=
  ({ cells := h.cells ++ [d] }, h.cells.length)

/-- Dereference. -/
def heapGet (h : DictHeap) (r : ℕ) : List (String × String) :=
  h.cells.getD r []

/-- Item assignment `d[k] = v` through a reference. -/
def heapDictSetItem (h : DictHeap) (r : ℕ) (k v : String) : DictHeap :=
  { cells := h.cells.set r (dictSet (heapGet h r) k v) }

/-- One sanitizing statement of `_get_sanitized_config`, heap level:
`if k in sanitized_config: sanitized_config[k] = "***REDACTED***"`,
acting through the reference `r`. -/
def condRedact (X : DictHeap) (r : ℕ) (k : String) : DictHeap :=
  if dictHasKey (heapGet X r) k then heapDictSetItem X r k redactionMarker else X

/-- `AgentEvaluator._get_sanitized_config`, heap level, with `self.config`
living at reference `rself`: `sanitized_config = self.config.copy()`
allocates a fresh object, and both conditional item assignments go through
the fresh reference only. -/
def getSanitizedConfigRef (h : DictHeap) (rself : ℕ) : DictHeap × ℕ :=
  let alloc := heapAlloc h (heapGet h rself)
  (condRedact (condRedact alloc.1 alloc.2 "api_key_v1") alloc.2 "api_key_v2", alloc.2)

/-! ## Helper lemmas on the string primitives -/

lemma pySplitAux_all_space (p : Char → Bool) (cs : List Char) (h : ∀ x ∈ cs, p x) :
    pySplitAux p cs [] = [] := by
  induction cs with
  | nil => rfl
  | cons c cs ih =>
    have hc : p c = true := h c (List.mem_cons_self c cs)
    simp only [pySplitAux, hc, if_true, List.isEmpty_nil, if_pos]
    exact ih (fun x hx => h x (List.mem_cons_of_mem c hx))

lemma all_space_of_pyStrip_empty (s : String) (h : pyStrip s = "") :
    ∀ x ∈ s.data, pyIsSpace x := by
  have hdata : ((s.data.dropWhile pyIsSpace).reverse.dropWhile pyIsSpace).reverse = [] := by
    have h₂ := congrArg String.data h
    simpa [pyStrip] using h₂
  rw [List.reverse_eq_nil_iff, List.dropWhile_eq_nil_iff] at hdata
  have hdrop : ∀ x ∈ s.data.dropWhile pyIsSpace, pyIsSpace x := by
    intro x hx
    exact hdata x (by simpa using hx)
  intro x hx
  have hsplit := List.takeWhile_append_dropWhile pyIsSpace s.data
  rw [← hsplit] at hx
  rcases List.mem_append.mp hx with h₁ | h₂
  · exact List.mem_takeWhile_imp h₁
  · exact hdrop x h₂

lemma pySplit_eq_nil (s : String) (h : pyStrip s = "") : pySplit s = [] :=
  pySplitAux_all_space pyIsSpace s.data (all_space_of_pyStrip_empty s h)

lemma clippedUnigramCount_nil_hyp (refTokens : List String) :
    clippedUnigramCount [] refTokens = 0 := rfl

lemma clippedUnigramCount_nil_ref (hypTokens : List String) :
    clippedUnigramCount hypTokens [] = 0 := by
  unfold clippedUnigramCount
  apply List.sum_eq_zero
  intro x hx
  simp only [List.mem_map] at hx
  obtain ⟨w, _, hw⟩ := hx
  simp only [List.count_nil, Nat.min_zero] at hw
  exact hw.symm

lemma sentence_bleu_zero_hyp (libs : NlpLibs) (refTokens : List String) :
    sentence_bleu libs refTokens [] = 0 := by
  simp [sentence_bleu, clippedUnigramCount_nil_hyp]

lemma sentence_bleu_zero_ref (libs : NlpLibs) (hypTokens : List String) :
    sentence_bleu libs [] hypTokens = 0 := by
  simp [sentence_bleu, clippedUnigramCount_nil_ref]

/-- Concrete NLP library behaviour used by witnesses: both external
computations return nonzero scores everywhere, so a zero in a conclusion
comes from the harness logic, not from the stub. -/
def stubLibs : NlpLibs :=
  { bleuRest := fun _ _ => 1, rougeImpl := fun _ _ => (1, 1, 1) }

/-! ## C3: Jaccard similarity -/

/-- C3: for every pair of response and expected strings,
`jaccard_similarity` equals the size of the intersection of their
lowercased word sets divided by the size of the union, equals `0` when the
union is empty, always lies in `[0, 1]`, and evaluates to `0.6 = 3/5` for
response `"the quick brown fox"` against expected `"the quick brown dog"`. -/
theorem jaccard_similarity_spec (libs : NlpLibs) (response expected : String) :
    ((lowerWordSet response ∪ lowerWordSet expected).card ≠ 0 →
      (calculateMetricsFor libs response expected).jaccard_similarity =
        ((lowerWordSet response ∩ lowerWordSet expected).card : ℚ) /
        ((lowerWordSet response ∪ lowerWordSet expected).card : ℚ)) ∧
    ((lowerWordSet response ∪ lowerWordSet expected).card = 0 →
      (calculateMetricsFor libs response expected).jaccard_similarity = 0) ∧
    0 ≤ (calculateMetricsFor libs response expected).jaccard_similarity ∧
    (calculateMetricsFor libs response expected).jaccard_similarity ≤ 1 ∧
    (calculateMetricsFor libs "the quick brown fox" "the quick brown dog").jaccard_similarity
      = 3 / 5 := by
  have hconc : (calculateMetricsFor libs "the quick brown fox" "the quick brown dog").jaccard_similarity
      = if (lowerWordSet "the quick brown fox" ∪ lowerWordSet "the quick brown dog").card > 0 then
          ((lowerWordSet "the quick brown fox" ∩ lowerWordSet "the quick brown dog").card : ℚ) /
          ((lowerWordSet "the quick brown fox" ∪ lowerWordSet "the quick brown dog").card : ℚ)
        else 0 := rfl
  have hval : ∀ u : ℕ,
      u = (lowerWordSet response ∪ lowerWordSet expected).card →
      (calculateMetricsFor libs response expected).jaccard_similarity =
        if u > 0 then
          ((lowerWordSet response ∩ lowerWordSet expected).card : ℚ) / (u : ℚ)
        else 0 := by
    intro u hu
    subst hu
    rfl
  have hcard : (lowerWordSet response ∩ lowerWordSet expected).card ≤
      (lowerWordSet response ∪ lowerWordSet expected).card :=
    Finset.card_le_card
      (le_trans Finset.inter_subset_left Finset.subset_union_left)
  refine ⟨?_, ?_, ?_, ?_, ?_⟩
  case refine_5 =>
    rw [hconc,
      show (lowerWordSet "the quick brown fox" ∩ lowerWordSet "the quick brown dog").card = 3
        from by decide,
      show (lowerWordSet "the quick brown fox" ∪ lowerWordSet "the quick brown dog").card = 5
        from by decide]
    norm_num
  · intro hu
    rw [hval _ rfl, if_pos (Nat.pos_of_ne_zero hu)]
  · intro hu
    rw [hval _ rfl, hu]
    simp
  · rw [hval _ rfl]
    split
    · positivity
    · exact le_refl 0
  · rw [hval _ rfl]
    split
    · rename_i hpos
      rw [div_le_one (by exact_mod_cast hpos)]
      exact_mod_cast hcard
    · exact zero_le_one

/-- Witness for C3 at the concrete pair from the spec: the union is
nonempty (its size is 5) and the similarity is the 3-of-5 ratio. -/
theorem jaccard_similarity_spec_witness :
    (lowerWordSet "the quick brown fox" ∪ lowerWordSet "the quick brown dog").card ≠ 0 ∧
    (calculateMetricsFor stubLibs "the quick brown fox" "the quick brown dog").jaccard_similarity =
      ((lowerWordSet "the quick brown fox" ∩ lowerWordSet "the quick brown dog").card : ℚ) /
      ((lowerWordSet "the quick brown fox" ∪ lowerWordSet "the quick brown dog").card : ℚ) :=
  ⟨by decide,
   (jaccard_similarity_spec stubLibs "the quick brown fox" "the quick brown dog").1 (by decide)⟩

/-! ## C4: rouge and bleu on empty or whitespace-only input -/

/-- C4: whenever the response or the expected string is empty or
whitespace-only (equivalently, strips to the empty string), the four
metrics `rouge_1`, `rouge_2`, `rouge_l` and `bleu_score` are all `0`,
for every behaviour of the external scoring libraries. -/
theorem empty_input_metrics_zero (libs : NlpLibs) (response expected : String)
    (h : pyStrip response = "" ∨ pyStrip expected = "") :
    (calculateMetricsFor libs response expected).rouge_1 = 0 ∧
    (calculateMetricsFor libs response expected).rouge_2 = 0 ∧
    (calculateMetricsFor libs response expected).rouge_l = 0 ∧
    (calculateMetricsFor libs response expected).bleu_score = 0 := by
  have hrouge : ¬ (pyStrip response ≠ "" ∧ pyStrip expected ≠ "") := by
    rcases h with h | h <;> simp [h]
  have hbleu : (calculateMetricsFor libs response expected).bleu_score = 0 := by
    rcases h with h | h
    · have hs := pySplit_eq_nil response h
      simp [calculateMetricsFor, calculate_metrics, hs, sentence_bleu_zero_hyp]
    · have hs := pySplit_eq_nil expected h
      simp [calculateMetricsFor, calculate_metrics, hs, sentence_bleu_zero_ref]
  refine ⟨?_, ?_, ?_, hbleu⟩ <;>
    simp [calculateMetricsFor, calculate_metrics, hrouge]

/-- Witness for C4 at the whitespace-only response `"  "` against expected
`"xyz"`, with stub libraries that would return `1` everywhere. -/
theorem empty_input_metrics_zero_witness :
    (pyStrip "  " = "" ∨ pyStrip "xyz" = "") ∧
    ((calculateMetricsFor stubLibs "  " "xyz").rouge_1 = 0 ∧
     (calculateMetricsFor stubLibs "  " "xyz").rouge_2 = 0 ∧
     (calculateMetricsFor stubLibs "  " "xyz").rouge_l = 0 ∧
     (calculateMetricsFor stubLibs "  " "xyz").bleu_score = 0) :=
  ⟨Or.inl (by decide), empty_input_metrics_zero stubLibs "  " "xyz" (Or.inl (by decide))⟩

/-! ## C6: lengths and length ratio -/

/-- C6: `response_length` and `expected_length` are the character counts,
`length_ratio` is `len(response) / max(len(expected), 1)`; with an empty
expected string the ratio is the response length (no division by zero),
and for a response of length 10 it is `10`. -/
theorem length_ratio_spec (libs : NlpLibs) (response expected : String) :
    (calculateMetricsFor libs response expected).response_length = response.length ∧
    (calculateMetricsFor libs response expected).expected_length = expected.length ∧
    (calculateMetricsFor libs response expected).length_ratio =
      (response.length : ℚ) / ((max expected.length 1 : ℕ) : ℚ) ∧
    (calculateMetricsFor libs response "").length_ratio = (response.length : ℚ) ∧
    (calculateMetricsFor libs "abcdefghij" "").length_ratio = 10 := by
  refine ⟨rfl, rfl, rfl, ?_, ?_⟩
  · show (response.length : ℚ) / ((max (String.length "") 1 : ℕ) : ℚ) = (response.length : ℚ)
    norm_num
  · show ((String.length "abcdefghij" : ℕ) : ℚ) / ((max (String.length "") 1 : ℕ) : ℚ) = 10
    norm_num [show String.length "abcdefghij" = 10 from rfl]

/-! ## C2 and C7: the retry loop -/

/-- Whether an attempt outcome is a raised `RequestException`. -/
def isErr : Except String String → Bool
  | .error _ => true
  | .ok _ => false

/-- The response text of a successful attempt outcome. -/
def okValue : Except String String → String
  | .ok c => c
  | .error _ => ""

/-- Whether a retry event is an HTTP attempt (as opposed to a sleep). -/
def isAttempt : RetryEv → Bool
  | .attempt _ => true
  | .sleep _ => false

lemma lastErrorFold_cons (backend : ℕ → Except String String) (le : Option String)
    (i : ℕ) (rest : List ℕ) :
    lastErrorFold backend le (i :: rest) =
      lastErrorFold backend
        (match backend i with
         | .error e => some e
         | .ok _ => le) rest := rfl

lemma callRetryGo_allFail (backend : ℕ → Except String String) (d N : ℕ)
    (l : List ℕ) (le : Option String) (h : ∀ i ∈ l, isErr (backend i) = true) :
    callRetryGo backend d N l le =
      ((none, some (failedMsg N (lastErrorFold backend le l))),
       l.flatMap (fun i => [RetryEv.attempt i, RetryEv.sleep (d * 2 ^ i)])) := by
  induction l generalizing le with
  | nil => rfl
  | cons i rest ih =>
    have hi := h i (List.mem_cons_self i rest)
    cases hb : backend i with
    | ok c => simp [isErr, hb] at hi
    | error e =>
      have hrest : ∀ j ∈ rest, isErr (backend j) = true :=
        fun j hj => h j (List.mem_cons_of_mem i hj)
      rw [lastErrorFold_cons, hb]
      simp only [callRetryGo, hb, ih (some e) hrest, List.flatMap_cons]
      rfl

lemma callRetryGo_firstSuccess (backend : ℕ → Except String String) (d N : ℕ)
    (l₁ : List ℕ) (k : ℕ) (l₂ : List ℕ) (le : Option String)
    (h₁ : ∀ i ∈ l₁, isErr (backend i) = true) (hk : isErr (backend k) = false) :
    callRetryGo backend d N (l₁ ++ k :: l₂) le =
      ((some (okValue (backend k)), none),
       l₁.flatMap (fun i => [RetryEv.attempt i, RetryEv.sleep (d * 2 ^ i)])
         ++ [RetryEv.attempt k]) := by
  induction l₁ generalizing le with
  | nil =>
    cases hb : backend k with
    | ok c => simp [callRetryGo, hb, okValue]
    | error e => simp [isErr, hb] at hk
  | cons i rest ih =>
    have hi := h₁ i (List.mem_cons_self i rest)
    cases hb : backend i with
    | ok c => simp [isErr, hb] at hi
    | error e =>
      have hrest : ∀ j ∈ rest, isErr (backend j) = true :=
        fun j hj => h₁ j (List.mem_cons_of_mem i hj)
      simp only [List.cons_append, callRetryGo, hb, List.append_eq]
      rw [ih (some e) hrest]
      simp [List.flatMap_cons, List.append_assoc]

lemma callRetryGo_exclusive (backend : ℕ → Except String String) (d N : ℕ)
    (l : List ℕ) (le : Option String) :
    ((callRetryGo backend d N l le).1.1.isSome = true ∧
     (callRetryGo backend d N l le).1.2.isSome = false) ∨
    ((callRetryGo backend d N l le).1.1.isSome = false ∧
     (callRetryGo backend d N l le).1.2.isSome = true) := by
  induction l generalizing le with
  | nil => right; simp [callRetryGo]
  | cons i rest ih =>
    cases hb : backend i with
    | ok c => left; simp [callRetryGo, hb]
    | error e => simpa [callRetryGo, hb] using ih (some e)

lemma countP_isAttempt_flatMap (d : ℕ) (l : List ℕ) :
    (l.flatMap (fun i => [RetryEv.attempt i, RetryEv.sleep (d * 2 ^ i)])).countP isAttempt
      = l.length := by
  induction l with
  | nil => rfl
  | cons i rest ih =>
    simp [List.flatMap_cons, List.countP_append, List.countP_cons, isAttempt, ih,
      Nat.add_comm]

lemma range_split (k N : ℕ) (h : k < N) :
    List.range N = List.range k ++ k :: List.range' (k + 1) (N - k - 1) := by
  have e₁ : List.range' 0 k ++ List.range' k (N - k) = List.range' 0 N := by
    have h₂ : N - k + k = N := Nat.sub_add_cancel h.le
    simpa [h₂] using List.range'_append 0 k (N - k) 1
  rw [List.range_eq_range', List.range_eq_range', ← e₁]
  congr 1
  have h₃ : N - k = (N - k - 1) + 1 := by omega
  rw [h₃, List.range'_succ]
  simp

/-- C2: with `max_retries = N` against a backend whose every attempt fails,
`_call_agent_with_retry` performs exactly `N` attempts and returns a null
response with a non-null terminal error string built from the attempt count
and the last failure; and on every return exactly one of `(response,
error)` is non-null. -/
theorem call_agent_retry_contract (backend : ℕ → Except String String) (N d : ℕ) :
    ((∀ i, i < N → isErr (backend i) = true) →
      ((callAgentWithRetry backend N d).2.countP isAttempt = N ∧
       (callAgentWithRetry backend N d).1 =
         (none, some (failedMsg N (lastErrorFold backend none (List.range N)))))) ∧
    (((callAgentWithRetry backend N d).1.1.isSome = true ∧
      (callAgentWithRetry backend N d).1.2.isSome = false) ∨
     ((callAgentWithRetry backend N d).1.1.isSome = false ∧
      (callAgentWithRetry backend N d).1.2.isSome = true)) := by
  constructor
  · intro h
    have hall : ∀ i ∈ List.range N, isErr (backend i) = true :=
      fun i hi => h i (List.mem_range.mp hi)
    have hgo := callRetryGo_allFail backend d N (List.range N) none hall
    unfold callAgentWithRetry
    rw [hgo]
    exact ⟨by simpa using countP_isAttempt_flatMap d (List.range N), rfl⟩
  · exact callRetryGo_exclusive backend d N (List.range N) none

/-- A backend whose every attempt raises, used by the C2 witness. -/
def alwaysFailBackend : ℕ → Except String String :=
  fun i => Except.error ("boom" ++ toString i)

/-- Witness for C2: three attempts against an always-failing backend, a
null response, and the terminal message naming the attempt count and the
last failure. -/
theorem call_agent_retry_contract_witness :
    (∀ i, i < 3 → isErr (alwaysFailBackend i) = true) ∧
    (callAgentWithRetry alwaysFailBackend 3 5).2.countP isAttempt = 3 ∧
    (callAgentWithRetry alwaysFailBackend 3 5).1 =
      (none, some "Failed after 3 attempts: boom2") := by
  have hfail : ∀ i, i < 3 → isErr (alwaysFailBackend i) = true := by
    intro i _
    rfl
  have h := (call_agent_retry_contract alwaysFailBackend 3 5).1 hfail
  refine ⟨hfail, h.1, ?_⟩
  rw [h.2]
  rfl

/-- C7: the back-off schedule.  If every attempt fails, the trace is
attempt 0, sleep `d * 2 ^ 0`, attempt 1, sleep `d * 2 ^ 1`, …, attempt
`N - 1`, sleep `d * 2 ^ (N - 1)` — a wait of `retry_delay * 2 ^ attempt`
after every failed attempt — and the call ends with the terminal error
string; if the first success is attempt `k`, the trace stops at attempt
`k` with no further sleep or attempt, so only failed non-final attempts
are followed by a further attempt. -/
theorem retry_backoff_schedule (backend : ℕ → Except String String) (N d : ℕ) :
    ((∀ i, i < N → isErr (backend i) = true) →
      ((callAgentWithRetry backend N d).2 =
        (List.range N).flatMap (fun i => [RetryEv.attempt i, RetryEv.sleep (d * 2 ^ i)]) ∧
       (callAgentWithRetry backend N d).1.2 =
         some (failedMsg N (lastErrorFold backend none (List.range N))))) ∧
    (∀ k, k < N → (∀ i, i < k → isErr (backend i) = true) → isErr (backend k) = false →
      (callAgentWithRetry backend N d).2 =
        (List.range k).flatMap (fun i => [RetryEv.attempt i, RetryEv.sleep (d * 2 ^ i)])
          ++ [RetryEv.attempt k]) := by
  constructor
  · intro h
    have hall : ∀ i ∈ List.range N, isErr (backend i) = true :=
      fun i hi => h i (List.mem_range.mp hi)
    have hgo := callRetryGo_allFail backend d N (List.range N) none hall
    unfold callAgentWithRetry
    rw [hgo]
    exact ⟨rfl, rfl⟩
  · intro k hk hfail hok
    have h₁ : ∀ i ∈ List.range k, isErr (backend i) = true :=
      fun i hi => hfail i (List.mem_range.mp hi)
    have hgo := callRetryGo_firstSuccess backend d N
      (List.range k) k (List.range' (k + 1) (N - k - 1)) none h₁ hok
    unfold callAgentWithRetry
    rw [range_split k N hk, hgo]

/-- A backend that fails on attempt 0 and succeeds from attempt 1 on, used
by the C7 witness. -/
def failThenOkBackend : ℕ → Except String String :=
  fun i => if i = 0 then Except.error "timeout" else Except.ok "pong"

/-- Witness for C7: one failure then one success, with `retry_delay = 5`:
the trace is attempt 0, a 5-second sleep (`5 * 2 ^ 0`), then attempt 1 and
nothing after it. -/
theorem retry_backoff_schedule_witness :
    ((1 : ℕ) < 3 ∧ (∀ i, i < 1 → isErr (failThenOkBackend i) = true) ∧
      isErr (failThenOkBackend 1) = false) ∧
    (callAgentWithRetry failThenOkBackend 3 5).2 =
      [RetryEv.attempt 0, RetryEv.sleep 5, RetryEv.attempt 1] := by
  have h₁ : (1 : ℕ) < 3 := by norm_num
  have hf : ∀ i, i < 1 → isErr (failThenOkBackend i) = true := by
    intro i hi
    have h₀ : i = 0 := by omega
    subst h₀
    rfl
  have hok : isErr (failThenOkBackend 1) = false := rfl
  have h := (retry_backoff_schedule failThenOkBackend 3 5).2 1 h₁ hf hok
  refine ⟨⟨h₁, hf, hok⟩, ?_⟩
  rw [h]
  rfl

/-! ## C1, C5 and C8: the evaluation batch -/

lemma runEvaluation_foldl (libs : NlpLibs)
    (callAgent : String → String → Option String × Option String)
    (clock : String → String → ℚ) :
    ∀ (instructions : List Instruction) (acc : List ResultRecord × List RunEv),
    instructions.foldl (runStep libs callAgent clock) acc =
      (acc.1 ++ instructions.map (recordOf libs callAgent clock),
       acc.2 ++ instructions.flatMap eventsOf) := by
  intro instructions
  induction instructions with
  | nil => intro acc; simp
  | cons ins rest ih =>
    intro acc
    rw [List.foldl_cons, ih]
    have hstep : runStep libs callAgent clock acc ins =
        (acc.1 ++ [recordOf libs callAgent clock ins], acc.2 ++ eventsOf ins) := rfl
    rw [hstep]
    simp [List.append_assoc]

lemma runEvaluation_eq (libs : NlpLibs)
    (callAgent : String → String → Option String × Option String)
    (clock : String → String → ℚ) (instructions : List Instruction) :
    runEvaluation libs callAgent clock instructions =
      (instructions.map (recordOf libs callAgent clock),
       instructions.flatMap eventsOf ++ [RunEv.save]) := by
  unfold runEvaluation
  rw [runEvaluation_foldl libs callAgent clock instructions ([], [])]
  simp

/-- C1: over a suite of `K` instructions, `run_evaluation` appends exactly
`K` result records, in suite iteration order (the `i`-th record is built
from the `i`-th instruction), each populated with both `v1_success` and
`v2_success` booleans, for every possible agent behaviour (including
failures); and the trace shows that for each instruction the record append
happens only after both the `v1` and the `v2` evaluation of that
instruction. -/
theorem run_evaluation_results (libs : NlpLibs)
    (callAgent : String → String → Option String × Option String)
    (clock : String → String → ℚ) (instructions : List Instruction) :
    (runEvaluation libs callAgent clock instructions).1.length = instructions.length ∧
    (runEvaluation libs callAgent clock instructions).1 =
      instructions.map (recordOf libs callAgent clock) ∧
    (runEvaluation libs callAgent clock instructions).2 =
      instructions.flatMap
        (fun ins => [RunEv.call "v1" ins.id, RunEv.call "v2" ins.id, RunEv.append ins.id])
        ++ [RunEv.save] := by
  rw [runEvaluation_eq]
  exact ⟨by simp, rfl, rfl⟩

/-- C8: `_save_results` is invoked exactly once per run of
`run_evaluation`, as the very last event, after every instruction has been
processed — never incrementally per instruction. -/
theorem save_results_once (libs : NlpLibs)
    (callAgent : String → String → Option String × Option String)
    (clock : String → String → ℚ) (instructions : List Instruction) :
    (runEvaluation libs callAgent clock instructions).2.count RunEv.save = 1 ∧
    (runEvaluation libs callAgent clock instructions).2.getLast? = some RunEv.save := by
  rw [runEvaluation_eq]
  constructor
  · have hzero : (instructions.flatMap eventsOf).count RunEv.save = 0 := by
      induction instructions with
      | nil => rfl
      | cons ins rest ih =>
        simp [List.flatMap_cons, List.count_append, eventsOf, ih, List.count_cons]
    simp [List.count_append, hzero, List.count_cons]
  · simp

/-- C5: the metrics of an evaluation outcome are present iff the
instruction carries an `expected_response` and the agent call succeeded
(returned a response with no error); and every stored result record takes
its per-version metrics and success fields from those evaluation outcomes,
so the record-level `MetricSet` is absent exactly when the expected
response is absent or the call terminally failed. -/
theorem metrics_presence_iff (libs : NlpLibs)
    (callAgent : String → String → Option String × Option String)
    (clock : String → String → ℚ) (ins : Instruction) (version : String)
    (instructions : List Instruction) :
    ((evaluateInstruction libs callAgent clock ins version).metrics.isSome = true ↔
      (ins.expected_response.isSome = true ∧
       (evaluateInstruction libs callAgent clock ins version).success = true)) ∧
    ((evaluateInstruction libs callAgent clock ins version).success = true ↔
      (∃ r, callAgent version (buildInstructionText ins) = (some r, none))) ∧
    (∀ rec ∈ (runEvaluation libs callAgent clock instructions).1,
      ∃ ins₀ ∈ instructions,
        rec.v1_metrics = (evaluateInstruction libs callAgent clock ins₀ "v1").metrics ∧
        rec.v2_metrics = (evaluateInstruction libs callAgent clock ins₀ "v2").metrics ∧
        rec.v1_success = (evaluateInstruction libs callAgent clock ins₀ "v1").success ∧
        rec.v2_success = (evaluateInstruction libs callAgent clock ins₀ "v2").success) := by
  refine ⟨?_, ?_, ?_⟩
  · rcases hc : callAgent version (buildInstructionText ins) with ⟨resp, err⟩
    cases resp with
    | some r =>
      cases err with
      | none =>
        cases he : ins.expected_response with
        | some e => simp [evaluateInstruction, hc, he]
        | none => simp [evaluateInstruction, hc, he]
      | some e => simp [evaluateInstruction, hc]
    | none => cases err <;> simp [evaluateInstruction, hc]
  · rcases hc : callAgent version (buildInstructionText ins) with ⟨resp, err⟩
    cases resp with
    | some r =>
      cases err with
      | none =>
        cases he : ins.expected_response with
        | some e => simp [evaluateInstruction, hc, he]
        | none => simp [evaluateInstruction, hc, he]
      | some e => simp [evaluateInstruction, hc]
    | none => cases err <;> simp [evaluateInstruction, hc]
  · intro rec hrec
    rw [runEvaluation_eq] at hrec
    obtain ⟨ins₀, hmem, hrecord⟩ := List.mem_map.mp hrec
    exact ⟨ins₀, hmem, by rw [← hrecord]; rfl, by rw [← hrecord]; rfl,
      by rw [← hrecord]; rfl, by rw [← hrecord]; rfl⟩

/-- An instruction carrying an expected response, used by the C5 witness. -/
def sampleInstruction : Instruction :=
  { id := "I1", type := "code_generation", title := "Say hi", difficulty := "easy"
    description := some "say hi", code := none, requirements := none
    expected_response := some "hello world" }

/-- An agent stub that always answers, used by the C5 witness. -/
def okAgent : String → String → Option String × Option String :=
  fun _ _ => (some "hello world", none)

/-- A constant duration oracle, used by the C5 witness. -/
def zeroClock : String → String → ℚ := fun _ _ => 0

/-- Witness for C5: with an expected response and a successful call the
metrics are present, and the stored record projects the evaluation
outcomes. -/
theorem metrics_presence_iff_witness :
    (evaluateInstruction stubLibs okAgent zeroClock sampleInstruction "v1").metrics.isSome
        = true ∧
    (∃ ins₀ ∈ [sampleInstruction],
      (recordOf stubLibs okAgent zeroClock sampleInstruction).v1_metrics =
        (evaluateInstruction stubLibs okAgent zeroClock ins₀ "v1").metrics ∧
      (recordOf stubLibs okAgent zeroClock sampleInstruction).v2_metrics =
        (evaluateInstruction stubLibs okAgent zeroClock ins₀ "v2").metrics ∧
      (recordOf stubLibs okAgent zeroClock sampleInstruction).v1_success =
        (evaluateInstruction stubLibs okAgent zeroClock ins₀ "v1").success ∧
      (recordOf stubLibs okAgent zeroClock sampleInstruction).v2_success =
        (evaluateInstruction stubLibs okAgent zeroClock ins₀ "v2").success) := by
  constructor
  · exact (metrics_presence_iff stubLibs okAgent zeroClock sampleInstruction "v1"
      [sampleInstruction]).1.mpr ⟨rfl, rfl⟩
  · have hmem : recordOf stubLibs okAgent zeroClock sampleInstruction ∈
        (runEvaluation stubLibs okAgent zeroClock [sampleInstruction]).1 := by
      have hrun : (runEvaluation stubLibs okAgent zeroClock [sampleInstruction]).1 =
          [recordOf stubLibs okAgent zeroClock sampleInstruction] := rfl
      rw [hrun]
      exact List.mem_singleton.mpr rfl
    exact (metrics_presence_iff stubLibs okAgent zeroClock sampleInstruction "v1"
      [sampleInstruction]).2.2 (recordOf stubLibs okAgent zeroClock sampleInstruction) hmem

/-! ## C9: sanitized configuration -/

set_option maxRecDepth 8192

lemma dictSet_of_not_hasKey (d : List (String × String)) (k v : String)
    (h : dictHasKey d k = false) : dictSet d k v = d := by
  have hall : ∀ kv ∈ d, kv.1 ≠ k := by
    intro kv hkv
    simpa using (List.any_eq_false.mp h) kv hkv
  unfold dictSet
  calc d.map (fun kv => if kv.1 = k then (kv.1, v) else kv)
      = d.map id := List.map_congr_left (fun kv hkv => by simp [hall kv hkv])
    _ = d := List.map_id d

lemma dictHasKey_dictSet (d : List (String × String)) (k v k₂ : String) :
    dictHasKey (dictSet d k v) k₂ = dictHasKey d k₂ := by
  induction d with
  | nil => rfl
  | cons kv rest ih =>
    simp only [dictSet, List.map_cons, dictHasKey, List.any_cons] at ih ⊢
    by_cases hk : kv.1 = k
    · simp [hk, ih]
    · simp [hk, ih]

lemma getSanitizedConfig_eq_two_sets (config : List (String × String)) :
    getSanitizedConfig config =
      dictSet (dictSet config "api_key_v1" redactionMarker) "api_key_v2" redactionMarker := by
  unfold getSanitizedConfig
  by_cases h₁ : dictHasKey config "api_key_v1"
  · by_cases h₂ : dictHasKey config "api_key_v2" <;>
      simp [h₁, h₂, dictHasKey_dictSet, dictSet_of_not_hasKey]
  · rw [dictSet_of_not_hasKey config "api_key_v1" redactionMarker (by simpa using h₁)]
    by_cases h₂ : dictHasKey config "api_key_v2" <;> simp [h₁, h₂, dictSet_of_not_hasKey]

/-- C9 (amended): `_get_sanitized_config` maps every entry whose key is
`api_key_v1` or `api_key_v2` to the fixed redaction marker and leaves every
other entry unchanged; in particular a credential value never survives as
the value of a credential field.  (The stronger claim — that no serialized
representation of the sanitized view can contain the literal credential
value — fails when the credential collides with retained text; see the
counterexample.) -/
theorem sanitized_config_redacts (config : List (String × String)) :
    getSanitizedConfig config =
      config.map (fun kv =>
        if kv.1 = "api_key_v1" ∨ kv.1 = "api_key_v2" then (kv.1, redactionMarker) else kv) ∧
    ∀ kv ∈ getSanitizedConfig config,
      (kv.1 = "api_key_v1" ∨ kv.1 = "api_key_v2") → kv.2 = redactionMarker := by
  have hmap : getSanitizedConfig config =
      config.map (fun kv =>
        if kv.1 = "api_key_v1" ∨ kv.1 = "api_key_v2" then (kv.1, redactionMarker) else kv) := by
    rw [getSanitizedConfig_eq_two_sets]
    unfold dictSet
    rw [List.map_map]
    apply List.map_congr_left
    intro kv _
    have hne : ("api_key_v1" : String) ≠ "api_key_v2" := by decide
    by_cases h₁ : kv.1 = "api_key_v1"
    · simp [Function.comp, h₁, hne]
    · by_cases h₂ : kv.1 = "api_key_v2" <;> simp [Function.comp, h₁, h₂]
  refine ⟨hmap, ?_⟩
  intro kv hkv hcred
  rw [hmap] at hkv
  obtain ⟨kv₀, hmem, hkv₀⟩ := List.mem_map.mp hkv
  by_cases hc : kv₀.1 = "api_key_v1" ∨ kv₀.1 = "api_key_v2"
  · rw [if_pos hc] at hkv₀
    rw [← hkv₀]
  · rw [if_neg hc] at hkv₀
    subst hkv₀
    exact absurd hcred hc

/-- The configuration used by the C9 counterexample and witness: the `v1`
credential supplied at construction is the one-character string `"*"`. -/
def leakConfig : List (String × String) :=
  [("agent_v1_endpoint", "e1"), ("agent_v2_endpoint", "e2"),
   ("api_key_v1", "*"), ("api_key_v2", "k2")]

/-- C9 counterexample: the claim that no serialized representation of the
sanitized configuration contains the literal credential value fails when
the credential collides with retained text.  Here the `v1` credential is
`"*"`, and the serialization of the sanitized configuration contains `"*"`
(inside the redaction marker `***REDACTED***` itself). -/
theorem sanitized_config_leak :
    dictGet leakConfig "api_key_v1" = some "*" ∧
    strContains (serializeConfig (getSanitizedConfig leakConfig)) "*" := by
  constructor
  · rfl
  · decide

/-- Witness for the amended C9 at `leakConfig`: the sanitized view holds
the redaction marker under `api_key_v1`, whose value is the marker. -/
theorem sanitized_config_redacts_witness :
    ("api_key_v1", redactionMarker) ∈ getSanitizedConfig leakConfig ∧
    ("api_key_v1", redactionMarker).2 = redactionMarker :=
  ⟨by decide,
   (sanitized_config_redacts leakConfig).2 ("api_key_v1", redactionMarker) (by decide)
     (Or.inl rfl)⟩

/-! ## C10: the sanitized view does not mutate the stored configuration -/

lemma heapGet_heapAlloc_lt (h : DictHeap) (d : List (String × String)) (r : ℕ)
    (hr : r < h.cells.length) :
    heapGet (heapAlloc h d).1 r = heapGet h r := by
  unfold heapGet heapAlloc
  simp [List.getD, List.getElem?_append_left hr]

lemma heapGet_heapAlloc_new (h : DictHeap) (d : List (String × String)) :
    heapGet (heapAlloc h d).1 (heapAlloc h d).2 = d := by
  unfold heapGet heapAlloc
  simp [List.getD]

lemma heapGet_heapDictSetItem_ne (h : DictHeap) (r : ℕ) (k v : String) (r₂ : ℕ)
    (hne : r ≠ r₂) :
    heapGet (heapDictSetItem h r k v) r₂ = heapGet h r₂ := by
  unfold heapGet heapDictSetItem
  simp [List.getD, List.getElem?_set_ne hne]

lemma heapGet_heapDictSetItem_self (h : DictHeap) (r : ℕ) (k v : String)
    (hr : r < h.cells.length) :
    heapGet (heapDictSetItem h r k v) r = dictSet (heapGet h r) k v := by
  unfold heapDictSetItem
  simp [heapGet, List.getD, List.getElem?_set_self, hr]

lemma condRedact_cells_length (X : DictHeap) (r : ℕ) (k : String) :
    (condRedact X r k).cells.length = X.cells.length := by
  unfold condRedact heapDictSetItem
  split <;> simp

lemma heapGet_condRedact_ne (X : DictHeap) (r : ℕ) (k : String) (r₂ : ℕ)
    (hne : r ≠ r₂) :
    heapGet (condRedact X r k) r₂ = heapGet X r₂ := by
  unfold condRedact
  split
  · exact heapGet_heapDictSetItem_ne X r k redactionMarker r₂ hne
  · rfl

lemma heapGet_condRedact_self (X : DictHeap) (r : ℕ) (k : String)
    (hr : r < X.cells.length) :
    heapGet (condRedact X r k) r =
      if dictHasKey (heapGet X r) k then dictSet (heapGet X r) k redactionMarker
      else heapGet X r := by
  unfold condRedact
  split
  · exact heapGet_heapDictSetItem_self X r k redactionMarker hr
  · rfl

/-- C10: producing the sanitized configuration view leaves the stored
configuration untouched — `self.config`, including the real credential
values, reads back unchanged after `_get_sanitized_config` — and the
returned fresh object holds exactly the sanitized value. -/
theorem get_sanitized_config_frame (h : DictHeap) (rself : ℕ)
    (hr : rself < h.cells.length) :
    heapGet (getSanitizedConfigRef h rself).1 rself = heapGet h rself ∧
    heapGet (getSanitizedConfigRef h rself).1 (getSanitizedConfigRef h rself).2 =
      getSanitizedConfig (heapGet h rself) := by
  have hrcopy : (heapAlloc h (heapGet h rself)).2 = h.cells.length := rfl
  have hne : (heapAlloc h (heapGet h rself)).2 ≠ rself := by
    rw [hrcopy]
    omega
  have hlen₁ : (heapAlloc h (heapGet h rself)).1.cells.length = h.cells.length + 1 := by
    simp [heapAlloc]
  constructor
  · show heapGet
      (condRedact
        (condRedact (heapAlloc h (heapGet h rself)).1 (heapAlloc h (heapGet h rself)).2
          "api_key_v1")
        (heapAlloc h (heapGet h rself)).2 "api_key_v2") rself = heapGet h rself
    rw [heapGet_condRedact_ne _ _ _ _ hne, heapGet_condRedact_ne _ _ _ _ hne,
      heapGet_heapAlloc_lt h _ rself hr]
  · show heapGet
      (condRedact
        (condRedact (heapAlloc h (heapGet h rself)).1 (heapAlloc h (heapGet h rself)).2
          "api_key_v1")
        (heapAlloc h (heapGet h rself)).2 "api_key_v2")
        (heapAlloc h (heapGet h rself)).2 =
      getSanitizedConfig (heapGet h rself)
    have hb₁ : (heapAlloc h (heapGet h rself)).2 <
        (heapAlloc h (heapGet h rself)).1.cells.length := by
      rw [hrcopy, hlen₁]
      omega
    have hb₂ : (heapAlloc h (heapGet h rself)).2 <
        (condRedact (heapAlloc h (heapGet h rself)).1 (heapAlloc h (heapGet h rself)).2
          "api_key_v1").cells.length := by
      rw [condRedact_cells_length]
      exact hb₁
    rw [heapGet_condRedact_self _ _ _ hb₂, heapGet_condRedact_self _ _ _ hb₁,
      heapGet_heapAlloc_new]
    rfl

/-- A two-object heap used by the C10 witness: the configuration with its
real credentials lives at reference 0. -/
def sampleHeap : DictHeap :=
  { cells := [[("agent_v1_endpoint", "e1"), ("agent_v2_endpoint", "e2"),
               ("api_key_v1", "sec1"), ("api_key_v2", "sec2"), ("timeout", "60")],
              [("other", "x")]] }

/-- Witness for C10 on a concrete heap: after taking the sanitized view,
the stored configuration still holds the real credentials, and the fresh
object holds the sanitized value. -/
theorem get_sanitized_config_frame_witness :
    0 < sampleHeap.cells.length ∧
    heapGet (getSanitizedConfigRef sampleHeap 0).1 0 = heapGet sampleHeap 0 ∧
    heapGet (getSanitizedConfigRef sampleHeap 0).1 (getSanitizedConfigRef sampleHeap 0).2 =
      getSanitizedConfig (heapGet sampleHeap 0) :=
  ⟨by decide, (get_sanitized_config_frame sampleHeap 0 (by decide)).1,
   (get_sanitized_config_frame sampleHeap 0 (by decide)).2⟩
